import Mathlib

/-!
Shallow embedding of the prediction-market core of the betting-platform
program (programs/betting-platform/src).  Machine integers are modelled as
`Nat`; `u128` arithmetic in the source is either plain (where the operands
are `u64`-sized and the result provably fits in 128 bits) or saturating
(`saturating_add`/`saturating_mul`/`saturating_sub`), mirrored here by
`satAdd128`/`satMul128` and truncated `Nat` subtraction.  `u64` additions
in account fields are overflow-checked (Anchor builds with
`overflow-checks = true`); a failed check aborts the transaction, which the
transactional model renders as an error with no state change.  Fallible
instructions return `TxResult`, and a committed operation is an `.ok`
result; an `.error` leaves every account unchanged, exactly as a failed
Solana transaction does.
-/

namespace Betting

/-- `u64::MAX`. -/
def U64_MAX : Nat := 18446744073709551615

/-- `u128::MAX`. -/
def U128_MAX : Nat := 340282366920938463463374607431768211455

/-- `constants.rs`: `INITIAL_PRICE`. -/
def INITIAL_PRICE : Nat := 100000000

/-- `constants.rs`: `SCALE_FACTOR`. -/
def SCALE_FACTOR : Nat := 10000000

/-- `constants.rs`: `CREATOR_FEE_PERCENT` (basis points). -/
def CREATOR_FEE_PERCENT : Nat := 100

/-- `constants.rs`: `PLATFORM_FEE_PERCENT` (basis points). -/
def PLATFORM_FEE_PERCENT : Nat := 200

/-- `deposit.rs`: `VIRTUAL_AMOUNT`, the virtual reserve (1 SOL in lamports). -/
def VIRTUAL_AMOUNT : Nat := 1000000000

/-- `deposit.rs`: `SCALE`, fixed-point probability precision (1e9). -/
def SCALE : Nat := 1000000000

/-- `PoolHistoryState::MAX_POINTS`. -/
def MAX_POINTS : Nat := 40

/-- `u128::saturating_add`. -/
def satAdd128 (a b : Nat) : Nat := min (a + b) U128_MAX

/-- `u128::saturating_mul`.  (`u128::saturating_sub` is `Nat` subtraction,
which already truncates at zero.) -/
def satMul128 (a b : Nat) : Nat := min (a * b) U128_MAX

/-- `error.rs`: the `BettingError` enum. -/
inductive BettingError where
  | Uninitialized
  | AlreadyInitialized
  | Unauthorized
  | BetEnded
  | InvalidBet
  | BetComplete
  | BetNotEnded
  | AlreadyClaimed
  | BetNotComplete
  | WrongBet
  | TitleTooLong
  | DescriptionTooLong
  | TitleEmpty
  | DescriptionEmpty
  | MathOverflow
deriving DecidableEq

/-- Outcome of a transaction: a program error code, or a runtime abort
(arithmetic overflow check, division by zero, missing account). -/
inductive TxError where
  | code : BettingError → TxError
  | abort : TxError
deriving DecidableEq

/-- Result of an instruction.  `.error` means the transaction failed and no
account was mutated. -/
inductive TxResult (α : Type) where
  | ok : α → TxResult α
  | error : TxError → TxResult α
deriving DecidableEq

def TxResult.bind {α β : Type} : TxResult α → (α → TxResult β) → TxResult β
  | .ok a, f => f a
  | .error e, _ => .error e

def TxResult.map {α β : Type} (f : α → β) : TxResult α → TxResult β
  | .ok a => .ok (f a)
  | .error e => .error e

/-- `main_state/state.rs`: `MainState`.  Public keys are abstracted as `Nat`
identities. -/
structure MainState where
  initialized : Bool
  owner : Nat
  scale_factor : Nat
  initial_price : Nat
  current_bet_id : Nat
  creator_fee_percent : Nat
  platform_fee_percent : Nat
deriving DecidableEq

/-- The zeroed account an Anchor `init` starts from. -/
def MainState.zero : MainState :=
  { initialized := false, owner := 0, scale_factor := 0, initial_price := 0,
    current_bet_id := 0, creator_fee_percent := 0, platform_fee_percent := 0 }

instance : Inhabited MainState := ⟨MainState.zero⟩

/-- `pool/state.rs`: `PoolState`.  The `share_uuid` string is elided: it is
a display value derived from `bet_id`, timestamp and slot, read by no
instruction. -/
structure PoolState where
  creator : Nat
  bet_id : Nat
  initial_price : Nat
  scale_factor : Nat
  total_supply : Nat
  total_reserve : Nat
  yes_supply : Nat
  yes_reserve : Nat
  no_supply : Nat
  no_reserve : Nat
  end_timestamp : Int
  created_timestamp : Int
  referee : Nat
  title : String
  description : String
  winner : String
  complete : Bool
  creator_fee_claimed : Bool
  platform_fee_claimed : Bool
deriving DecidableEq

instance : Inhabited PoolState :=
  ⟨{ creator := 0, bet_id := 0, initial_price := 0, scale_factor := 0,
     total_supply := 0, total_reserve := 0, yes_supply := 0, yes_reserve := 0,
     no_supply := 0, no_reserve := 0, end_timestamp := 0, created_timestamp := 0,
     referee := 0, title := "", description := "", winner := "",
     complete := false, creator_fee_claimed := false, platform_fee_claimed := false }⟩

/-- `pool/state.rs`: `ProbabilityPoint`. -/
structure ProbabilityPoint where
  timestamp : Int
  yes_reserve : Nat
  no_reserve : Nat
deriving DecidableEq

/-- `pool/state.rs`: `PoolHistoryState`.  The `pool` pubkey is abstracted as
the pool's `bet_id`. -/
structure PoolHistoryState where
  pool : Nat
  bet_id : Nat
  points : List ProbabilityPoint
deriving DecidableEq

instance : Inhabited PoolHistoryState := ⟨{ pool := 0, bet_id := 0, points := [] }⟩

/-- `pool/state.rs`: `EntryState`. -/
structure EntryState where
  user : Nat
  bet_id : Nat
  deposited_sol_amount : Nat
  token_balance : Nat
  is_yes : Bool
  is_claimed : Bool
deriving DecidableEq

instance : Inhabited EntryState :=
  ⟨{ user := 0, bet_id := 0, deposited_sol_amount := 0, token_balance := 0,
     is_yes := true, is_claimed := false }⟩

/-- `deposit.rs`: the scaled YES price `virtual_yes * SCALE / denom` computed
inside `calculate_token_amount_and_prices`.  For `u64` reserves every
intermediate fits in `u128`, so the plain `u128` arithmetic is plain `Nat`
arithmetic. -/
def yes_price (yes_reserve no_reserve : Nat) : Nat :=
  (yes_reserve + VIRTUAL_AMOUNT) * SCALE /
    ((yes_reserve + VIRTUAL_AMOUNT) + (no_reserve + VIRTUAL_AMOUNT))

/-- `deposit.rs`: the scaled NO price `virtual_no * SCALE / denom`. -/
def no_price (yes_reserve no_reserve : Nat) : Nat :=
  (no_reserve + VIRTUAL_AMOUNT) * SCALE /
    ((yes_reserve + VIRTUAL_AMOUNT) + (no_reserve + VIRTUAL_AMOUNT))

/-- `deposit.rs`: `calculate_token_amount_and_prices`.  A zero selected price
makes the `u128` division panic (runtime abort); a token amount beyond
`u64::MAX` fails the `try_into` with `MathOverflow`. -/
def calculate_token_amount_and_prices (deposit_amount : Nat) (is_yes : Bool)
    (yes_reserve no_reserve : Nat) : TxResult (Nat × Nat × Nat) :=
  let yp := yes_price yes_reserve no_reserve
  let np := no_price yes_reserve no_reserve
  let selected_price := if is_yes then yp else np
  if selected_price = 0 then .error .abort
  else if deposit_amount * SCALE / selected_price ≤ U64_MAX then
    .ok (deposit_amount * SCALE / selected_price, yp, np)
  else .error (.code .MathOverflow)

/-- `deposit.rs`: the history maintenance at the end of `deposit` — the
legacy re-seed branch, the append of the post-deposit snapshot, and the
FIFO cap at `MAX_POINTS`. -/
def appendHistory (h : PoolHistoryState) (p : PoolState) (now : Int) :
    PoolHistoryState :=
  let h1 :=
    if h.bet_id = 0 then
      { h with bet_id := p.bet_id, pool := p.bet_id,
               points := if h.points.isEmpty
                         then h.points ++ [⟨now, 0, 0⟩] else h.points }
    else h
  let pts := h1.points ++ [⟨now, p.yes_reserve, p.no_reserve⟩]
  { h1 with points := if MAX_POINTS < pts.length
                      then pts.drop (pts.length - MAX_POINTS) else pts }

/-- `deposit.rs`: the `deposit` instruction handler.  Returns the updated
pool, entry and history together with the minted token amount (the lamport
transfer of `amount` into the vault is accounted by the caller). -/
def deposit (p : PoolState) (e : EntryState) (h : PoolHistoryState)
    (is_yes : Bool) (amount : Nat) (now : Int) :
    TxResult (PoolState × EntryState × PoolHistoryState × Nat) :=
  if p.complete then .error (.code .BetComplete)
  else if 0 ≤ p.end_timestamp ∧ ¬ (now < p.end_timestamp) then
    .error (.code .BetEnded)
  else if ¬ (0 < amount) then .error (.code .InvalidBet)
  else if ¬ (e.token_balance = 0 ∨ e.is_yes = is_yes) then
    .error (.code .InvalidBet)
  else
    match calculate_token_amount_and_prices amount is_yes p.yes_reserve p.no_reserve with
    | .error err => .error err
    | .ok (token_amount, _, _) =>
      if p.total_supply + token_amount ≤ U64_MAX ∧
         p.total_reserve + amount ≤ U64_MAX ∧
         (if is_yes then p.yes_supply else p.no_supply) + token_amount ≤ U64_MAX ∧
         (if is_yes then p.yes_reserve else p.no_reserve) + amount ≤ U64_MAX ∧
         e.deposited_sol_amount + amount ≤ U64_MAX ∧
         e.token_balance + token_amount ≤ U64_MAX then
        let p' :=
          if is_yes then
            { p with total_supply := p.total_supply + token_amount,
                     total_reserve := p.total_reserve + amount,
                     yes_supply := p.yes_supply + token_amount,
                     yes_reserve := p.yes_reserve + amount }
          else
            { p with total_supply := p.total_supply + token_amount,
                     total_reserve := p.total_reserve + amount,
                     no_supply := p.no_supply + token_amount,
                     no_reserve := p.no_reserve + amount }
        let e' :=
          { e with deposited_sol_amount := e.deposited_sol_amount + amount,
                   token_balance := e.token_balance + token_amount,
                   is_yes := is_yes }
        .ok (p', e', appendHistory h p' now, token_amount)
      else .error .abort

/-- `claim.rs`: `total_reserve = yes_reserve.saturating_add(no_reserve)`
(`u128`). -/
def total_reserve128 (p : PoolState) : Nat := satAdd128 p.yes_reserve p.no_reserve

/-- `claim.rs` / `claim_creator_fee.rs`: the creator fee
`total_reserve.saturating_mul(creator_fee_percent) / 10000`. -/
def creator_fee (m : MainState) (p : PoolState) : Nat :=
  satMul128 (total_reserve128 p) m.creator_fee_percent / 10000

/-- `claim.rs` / `set_winner.rs`: the platform fee
`total_reserve.saturating_mul(platform_fee_percent) / 10000`. -/
def platform_fee (m : MainState) (p : PoolState) : Nat :=
  satMul128 (total_reserve128 p) m.platform_fee_percent / 10000

/-- `claim.rs`: `pool_state.winner.eq(&"yes")`. -/
def winnerIsYes (p : PoolState) : Bool := p.winner == "yes"

/-- `claim.rs`: the reserve of the winning side. -/
def winningReserve (p : PoolState) : Nat :=
  if winnerIsYes p then p.yes_reserve else p.no_reserve

/-- `claim.rs`: the token supply of the winning side. -/
def winningSupply (p : PoolState) : Nat :=
  if winnerIsYes p then p.yes_supply else p.no_supply

/-- `claim.rs`: `available_profit`, total reserve minus winning reserve and
both fees, all with `u128::saturating_sub`. -/
def available_profit (m : MainState) (p : PoolState) : Nat :=
  total_reserve128 p - winningReserve p - creator_fee m p - platform_fee m p

/-- `claim.rs`: `profit_share_u128`, the claimant's pro-rata share of the
available profit, weighted by outcome tokens. -/
def profit_share (m : MainState) (p : PoolState) (e : EntryState) : Nat :=
  if 0 < available_profit m p then
    satMul128 e.token_balance (available_profit m p) / winningSupply p
  else 0

/-- `claim.rs`: `claim_total_u128 = principal.saturating_add(profit_share)`. -/
def claimPayout (m : MainState) (p : PoolState) (e : EntryState) : Nat :=
  satAdd128 e.deposited_sol_amount (profit_share m p e)

/-- `claim.rs`: the `claim` instruction handler.  Returns the updated entry
and the lamport payout transferred from the vault to the user. -/
def claim (m : MainState) (p : PoolState) (e : EntryState) (now : Int) :
    TxResult (EntryState × Nat) :=
  if e.is_claimed then .error (.code .AlreadyClaimed)
  else if 0 ≤ p.end_timestamp ∧ ¬ (p.end_timestamp < now) then
    .error (.code .BetNotEnded)
  else if ¬ p.complete then .error (.code .BetNotComplete)
  else if ¬ (e.is_yes = winnerIsYes p) then .error (.code .WrongBet)
  else if ¬ (0 < winningSupply p) then .error (.code .MathOverflow)
  else if ¬ (0 < e.token_balance) then .error (.code .WrongBet)
  else if claimPayout m p e ≤ U64_MAX then
    .ok ({ e with is_claimed := true }, claimPayout m p e)
  else .error (.code .MathOverflow)

/-- `set_winner.rs`: the `set_winner` (resolve) instruction handler.  Returns
the updated pool and the platform fee transferred from the vault to the
platform owner (`fee.min(u64::MAX)`, transferred only when positive). -/
def set_winner (m : MainState) (p : PoolState) (caller : Nat) (is_yes : Bool)
    (now : Int) : TxResult (PoolState × Nat) :=
  if p.complete then .error (.code .BetComplete)
  else if ¬ (p.referee = caller ∨ m.owner = caller) then
    .error (.code .Unauthorized)
  else if 0 ≤ p.end_timestamp ∧ ¬ (p.end_timestamp < now) then
    .error (.code .BetNotEnded)
  else
    .ok ({ p with complete := true,
                  winner := if is_yes then "yes" else "no",
                  platform_fee_claimed := true },
         min (platform_fee m p) U64_MAX)

/-- `claim_creator_fee.rs`: the `claim_creator_fee` instruction handler.
Returns the updated pool and the creator fee transferred from the vault. -/
def claim_creator_fee (m : MainState) (p : PoolState) (caller : Nat)
    (now : Int) : TxResult (PoolState × Nat) :=
  if ¬ (p.creator = caller) then .error (.code .Unauthorized)
  else if p.creator_fee_claimed then .error (.code .AlreadyClaimed)
  else if 0 ≤ p.end_timestamp ∧ ¬ (p.end_timestamp < now) then
    .error (.code .BetNotEnded)
  else if ¬ p.complete then .error (.code .BetNotComplete)
  else .ok ({ p with creator_fee_claimed := true }, min (creator_fee m p) U64_MAX)

/-- `create_entry.rs`: the `create_entry` (open-entry) instruction handler.
The account is `init_if_needed`; whether or not the entry already existed,
the handler assigns the freshly-initialized field values. -/
def create_entry (p : PoolState) (user : Nat) (bet_id : Nat) (now : Int) :
    TxResult EntryState :=
  if p.complete then .error (.code .BetComplete)
  else if 0 ≤ p.end_timestamp ∧ ¬ (now < p.end_timestamp) then
    .error (.code .BetEnded)
  else .ok { user := user, bet_id := bet_id, deposited_sol_amount := 0,
             token_balance := 0, is_yes := true, is_claimed := false }

/-- `create_pool.rs`: the `create_pool` (create-market) instruction handler.
Returns the updated registry, the new pool and its seeded history.
`title.len()` is a byte length, mirrored by `String.utf8ByteSize`. -/
def create_pool (m : MainState) (creator referee : Nat)
    (title description : String) (end_timestamp now : Int) :
    TxResult (MainState × PoolState × PoolHistoryState) :=
  if ¬ (m.initialized = true) then .error (.code .Uninitialized)
  else if ¬ (title.utf8ByteSize ≤ 100) then .error (.code .TitleTooLong)
  else if ¬ (description.utf8ByteSize ≤ 500) then .error (.code .DescriptionTooLong)
  else if title.isEmpty then .error (.code .TitleEmpty)
  else if description.isEmpty then .error (.code .DescriptionEmpty)
  else if ¬ (m.current_bet_id + 1 ≤ U64_MAX) then .error .abort
  else
    .ok ({ m with current_bet_id := m.current_bet_id + 1 },
         { creator := creator, bet_id := m.current_bet_id,
           initial_price := m.initial_price, scale_factor := m.scale_factor,
           total_supply := 0, total_reserve := 0, yes_supply := 0,
           yes_reserve := 0, no_supply := 0, no_reserve := 0,
           end_timestamp := end_timestamp, created_timestamp := now,
           referee := referee, title := title, description := description,
           winner := "", complete := false, creator_fee_claimed := false,
           platform_fee_claimed := false },
         { pool := m.current_bet_id, bet_id := m.current_bet_id,
           points := [⟨now, 0, 0⟩] })

/-- `update_pool.rs`: the optional title overwrite with its validation. -/
def apply_title_update (p : PoolState) : Option String → TxResult PoolState
  | none => .ok p
  | some t =>
    if ¬ (t.utf8ByteSize ≤ 100) then .error (.code .TitleTooLong)
    else if t.isEmpty then .error (.code .TitleEmpty)
    else .ok { p with title := t }

/-- `update_pool.rs`: the optional description overwrite with its
validation. -/
def apply_description_update (p : PoolState) : Option String → TxResult PoolState
  | none => .ok p
  | some d =>
    if ¬ (d.utf8ByteSize ≤ 500) then .error (.code .DescriptionTooLong)
    else if d.isEmpty then .error (.code .DescriptionEmpty)
    else .ok { p with description := d }

/-- `update_pool.rs`: `UpdatePoolInput`. -/
structure UpdatePoolInput where
  title : Option String
  description : Option String
  end_timestamp : Option Int
  referee : Option Nat
deriving DecidableEq

/-- `update_pool.rs`: the `update_pool` (update-market) instruction
handler. -/
def update_pool (m : MainState) (p : PoolState) (caller : Nat)
    (input : UpdatePoolInput) : TxResult PoolState :=
  if ¬ (p.creator = caller ∨ m.owner = caller) then .error (.code .Unauthorized)
  else if p.complete then .error (.code .BetComplete)
  else
    (apply_title_update p input.title).bind fun p1 =>
    (apply_description_update p1 input.description).bind fun p2 =>
    .ok { p2 with end_timestamp := input.end_timestamp.getD p2.end_timestamp,
                  referee := input.referee.getD p2.referee }

/-- `init_main_state.rs`: the `init_main_state` (init-registry) instruction
handler. -/
def init_main_state (owner : Nat) (m : MainState) : TxResult MainState :=
  if m.initialized then .error (.code .AlreadyInitialized)
  else .ok { initialized := true, owner := owner,
             initial_price := INITIAL_PRICE, scale_factor := SCALE_FACTOR,
             current_bet_id := 0, creator_fee_percent := CREATOR_FEE_PERCENT,
             platform_fee_percent := PLATFORM_FEE_PERCENT }

/-- `update_main_state.rs`: `UpdateMainStateInput`. -/
structure UpdateMainStateInput where
  owner : Nat
  initial_price : Nat
  scale_factor : Nat
  creator_fee_percent : Nat
  platform_fee_percent : Nat
deriving DecidableEq

/-- `update_main_state.rs`: the `update_main_state` (update-registry)
instruction handler.  The Anchor `address = main_state.owner` constraint is
the signer check. -/
def update_main_state (m : MainState) (caller : Nat)
    (input : UpdateMainStateInput) : TxResult MainState :=
  if ¬ (m.owner = caller) then .error (.code .Unauthorized)
  else if ¬ (m.initialized = true) then .error (.code .Uninitialized)
  else .ok { m with owner := input.owner,
                    initial_price := input.initial_price,
                    scale_factor := input.scale_factor,
                    creator_fee_percent := input.creator_fee_percent,
                    platform_fee_percent := input.platform_fee_percent }

/-!
The per-market transactional world: the registry, one market's pool and
history, its entries keyed by user identity, and the lamport flows through
the shared vault attributable to this market.  Each operation executes
atomically; an `.error` result commits nothing.
-/

structure World where
  main : MainState
  pool : PoolState
  history : PoolHistoryState
  entries : List (Nat × EntryState)
  vault_in : Nat
  vault_out : Nat
deriving DecidableEq

instance : Inhabited World :=
  ⟨{ main := default, pool := default, history := default, entries := [],
     vault_in := 0, vault_out := 0 }⟩

/-- Entry account lookup (Anchor PDA per (pool, user)). -/
def lookupEntry (w : World) (user : Nat) : Option EntryState :=
  (w.entries.find? (fun pr => pr.fst = user)).map Prod.snd

/-- Store an entry account under its user key. -/
def setEntry (l : List (Nat × EntryState)) (user : Nat) (e : EntryState) :
    List (Nat × EntryState) :=
  match l with
  | [] => [(user, e)]
  | (k, v) :: rest =>
    if k = user then (k, e) :: rest else (k, v) :: setEntry rest user e

/-- The operations a committed transaction can perform on an existing
market (`now` is the ledger clock at execution). -/
inductive Op where
  | updateMain (caller : Nat) (input : UpdateMainStateInput)
  | updatePool (caller : Nat) (input : UpdatePoolInput)
  | createEntry (user : Nat) (now : Int)
  | deposit (user : Nat) (is_yes : Bool) (amount : Nat) (now : Int)
  | setWinner (caller : Nat) (is_yes : Bool) (now : Int)
  | claimOp (user : Nat) (now : Int)
  | claimCreatorFee (caller : Nat) (now : Int)

/-- Execute one operation transactionally.  A missing entry account fails
Anchor's account validation (runtime abort). -/
def applyOp (op : Op) (w : World) : TxResult World :=
  match op with
  | .updateMain caller input =>
    match update_main_state w.main caller input with
    | .error e => .error e
    | .ok m' => .ok { w with main := m' }
  | .updatePool caller input =>
    match update_pool w.main w.pool caller input with
    | .error e => .error e
    | .ok p' => .ok { w with pool := p' }
  | .createEntry user now =>
    match create_entry w.pool user w.pool.bet_id now with
    | .error e => .error e
    | .ok e' => .ok { w with entries := setEntry w.entries user e' }
  | .deposit user is_yes amount now =>
    match lookupEntry w user with
    | none => .error .abort
    | some e =>
      match deposit w.pool e w.history is_yes amount now with
      | .error err => .error err
      | .ok (p', e', h', _token_amount) =>
        .ok { w with pool := p', history := h',
                     entries := setEntry w.entries user e',
                     vault_in := w.vault_in + amount }
  | .setWinner caller is_yes now =>
    match set_winner w.main w.pool caller is_yes now with
    | .error e => .error e
    | .ok (p', fee) => .ok { w with pool := p', vault_out := w.vault_out + fee }
  | .claimOp user now =>
    match lookupEntry w user with
    | none => .error .abort
    | some e =>
      match claim w.main w.pool e now with
      | .error err => .error err
      | .ok (e', payout) =>
        .ok { w with entries := setEntry w.entries user e',
                     vault_out := w.vault_out + payout }
  | .claimCreatorFee caller now =>
    match claim_creator_fee w.main w.pool caller now with
    | .error e => .error e
    | .ok (p', fee) => .ok { w with pool := p', vault_out := w.vault_out + fee }

/-- Initial world: `init_main_state` on a zeroed registry followed by
`create_pool` for the market under consideration. -/
def mkWorld (owner creator referee : Nat) (title description : String)
    (end_timestamp now : Int) : TxResult World :=
  match init_main_state owner MainState.zero with
  | .error e => .error e
  | .ok m =>
    match create_pool m creator referee title description end_timestamp now with
    | .error e => .error e
    | .ok (m', p, h) =>
      .ok { main := m', pool := p, history := h, entries := [],
            vault_in := 0, vault_out := 0 }

/-- Run a list of operations transactionally from a starting result. -/
def runOps (w : TxResult World) (ops : List Op) : TxResult World :=
  ops.foldl (fun r op => r.bind (applyOp op)) w

/-- Worlds reachable by committed operations from a freshly created
market. -/
inductive Reachable : World → Prop where
  | base : ∀ owner creator referee title description end_ts now w,
      mkWorld owner creator referee title description end_ts now = .ok w →
      Reachable w
  | step : ∀ op w w', Reachable w → applyOp op w = .ok w' → Reachable w'

/-- Extract the committed world of a successful run (default world
otherwise; used only to name concrete committed states). -/
def worldOf : TxResult World → World
  | .ok w => w
  | .error _ => default

/-- Extract a committed registry state. -/
def mainOf : TxResult MainState → MainState
  | .ok m => m
  | .error _ => default

/-!
Concrete committed states used by the scenario theorems and witnesses.
Identities: 10 = platform owner, 11 = market creator, 12 = referee,
3 and 13 = participants.
-/

/-- Scenario S1: fixed-deadline market (end = 3600), one deposit of
1 SOL on YES by user 13. -/
def s1_run : TxResult World :=
  runOps (mkWorld 10 11 12 "title" "desc" 3600 0)
    [.createEntry 13 1, .deposit 13 true 1000000000 2]

/-- Open-ended market (end = -1): user 3 deposits 100 lamports on YES,
then the referee resolves YES.  All reserves sit on the winning side. -/
def onesided_resolved : World :=
  worldOf (runOps (mkWorld 10 11 12 "t" "d" (-1) 0)
    [.createEntry 3 1, .deposit 3 true 100 2, .setWinner 12 true 3])

/-- The single (winning) entry of `onesided_resolved`. -/
def onesided_entry : EntryState := (lookupEntry onesided_resolved 3).getD default

/-- `onesided_resolved` after the winner claims and the creator claims the
creator fee. -/
def onesided_final : TxResult World :=
  runOps (.ok onesided_resolved) [.claimOp 3 4, .claimCreatorFee 11 5]

/-- Freshly created fixed-deadline market (end = 3600). -/
def base_world : World := worldOf (mkWorld 10 11 12 "t" "d" 3600 0)

/-- `base_world` after user 3 opens an entry. -/
def world_after_entry : World := worldOf (applyOp (.createEntry 3 1) base_world)

/-- Fixed-deadline market with a funded entry for user 3 (deposited 100,
holding 200 YES tokens), before any resolution. -/
def funded_open : World :=
  worldOf (applyOp (.deposit 3 true 100 2) world_after_entry)

/-- The funded entry of user 3 in `funded_open`. -/
def funded_entry : EntryState := (lookupEntry funded_open 3).getD default

/-- `onesided_resolved` after the creator claims the creator fee. -/
def resolved_after_fee : World :=
  worldOf (applyOp (.claimCreatorFee 11 5) onesided_resolved)

/-- Open-ended market with 1 SOL deposited on each side, resolved YES:
here the losing reserve covers both fees. -/
def twosided_resolved : World :=
  worldOf (runOps (mkWorld 10 11 12 "t" "d" (-1) 0)
    [.createEntry 3 1, .deposit 3 true 1000000000 2,
     .createEntry 4 3, .deposit 4 false 1000000000 4,
     .setWinner 12 true 5])

/-- The winning (YES) entry of `twosided_resolved`. -/
def twosided_entry : EntryState :=
  (lookupEntry twosided_resolved 3).getD default

/-- A not-yet-complete pool whose fixed deadline is the instant 100. -/
def boundary_pool : PoolState :=
  { (default : PoolState) with end_timestamp := 100, referee := 12 }

/-- Registry state right after `init_main_state`. -/
def registry_init : MainState := mainOf (init_main_state 10 MainState.zero)

/-- Registry after an `update_main_state` carrying fees 9000/9000 bps. -/
def registry_bad : MainState :=
  mainOf (update_main_state registry_init 10
    { owner := 10, initial_price := 1, scale_factor := 1,
      creator_fee_percent := 9000, platform_fee_percent := 9000 })

/-- Registry after an `update_main_state` carrying fees 100/200 bps. -/
def registry_good : MainState :=
  mainOf (update_main_state registry_init 10
    { owner := 10, initial_price := 1, scale_factor := 1,
      creator_fee_percent := 100, platform_fee_percent := 200 })

/-! ## General arithmetic helper lemmas -/

/-- Division floors are superadditive: `a/c + b/c ≤ (a+b)/c`. -/
theorem div_add_div_le (a b c : Nat) : a / c + b / c ≤ (a + b) / c := by
  rcases Nat.eq_zero_or_pos c with hc | hc
  · simp [hc]
  · rw [Nat.add_div hc]
    split <;> omega

/-! ## Per-instruction shape lemmas -/

/-- A pool created by `create_pool` has zeroed supplies and reserves and is
not complete. -/
theorem create_pool_ok_pool {m : MainState} {c r : Nat} {t d : String}
    {et now : Int} {m' : MainState} {p : PoolState} {hh : PoolHistoryState}
    (h : create_pool m c r t d et now = .ok (m', p, hh)) :
    p.total_supply = 0 ∧ p.total_reserve = 0 ∧ p.yes_supply = 0 ∧
    p.yes_reserve = 0 ∧ p.no_supply = 0 ∧ p.no_reserve = 0 ∧
    p.complete = false := by
  unfold create_pool at h
  repeat' split at h
  all_goals try exact TxResult.noConfusion h
  all_goals simp only [TxResult.ok.injEq, Prod.mk.injEq] at h
  all_goals obtain ⟨-, hp, -⟩ := h
  all_goals subst hp
  all_goals exact ⟨rfl, rfl, rfl, rfl, rfl, rfl, rfl⟩

/-- `apply_title_update` touches only the title. -/
theorem apply_title_update_fields {p p' : PoolState} {o : Option String}
    (h : apply_title_update p o = .ok p') :
    p'.total_supply = p.total_supply ∧ p'.total_reserve = p.total_reserve ∧
    p'.yes_supply = p.yes_supply ∧ p'.yes_reserve = p.yes_reserve ∧
    p'.no_supply = p.no_supply ∧ p'.no_reserve = p.no_reserve ∧
    p'.complete = p.complete := by
  unfold apply_title_update at h
  cases o with
  | none =>
    simp only [TxResult.ok.injEq] at h
    subst h
    exact ⟨rfl, rfl, rfl, rfl, rfl, rfl, rfl⟩
  | some t =>
    repeat' split at h
    all_goals try exact TxResult.noConfusion h
    all_goals simp only [TxResult.ok.injEq] at h
    all_goals subst h
    all_goals exact ⟨rfl, rfl, rfl, rfl, rfl, rfl, rfl⟩

/-- `apply_description_update` touches only the description. -/
theorem apply_description_update_fields {p p' : PoolState} {o : Option String}
    (h : apply_description_update p o = .ok p') :
    p'.total_supply = p.total_supply ∧ p'.total_reserve = p.total_reserve ∧
    p'.yes_supply = p.yes_supply ∧ p'.yes_reserve = p.yes_reserve ∧
    p'.no_supply = p.no_supply ∧ p'.no_reserve = p.no_reserve ∧
    p'.complete = p.complete := by
  unfold apply_description_update at h
  cases o with
  | none =>
    simp only [TxResult.ok.injEq] at h
    subst h
    exact ⟨rfl, rfl, rfl, rfl, rfl, rfl, rfl⟩
  | some d =>
    repeat' split at h
    all_goals try exact TxResult.noConfusion h
    all_goals simp only [TxResult.ok.injEq] at h
    all_goals subst h
    all_goals exact ⟨rfl, rfl, rfl, rfl, rfl, rfl, rfl⟩

/-- A committed `update_pool` changes neither supplies, reserves, nor the
completion flag, and it commits only on a market that was not complete. -/
theorem update_pool_fields {m : MainState} {p p' : PoolState} {c : Nat}
    {input : UpdatePoolInput} (h : update_pool m p c input = .ok p') :
    p'.total_supply = p.total_supply ∧ p'.total_reserve = p.total_reserve ∧
    p'.yes_supply = p.yes_supply ∧ p'.yes_reserve = p.yes_reserve ∧
    p'.no_supply = p.no_supply ∧ p'.no_reserve = p.no_reserve ∧
    p'.complete = p.complete ∧ p.complete = false := by
  unfold update_pool at h
  split at h
  · exact TxResult.noConfusion h
  split at h
  · exact TxResult.noConfusion h
  rename_i hauth hnc
  cases ht : apply_title_update p input.title with
  | error e =>
    rw [ht] at h
    exact TxResult.noConfusion h
  | ok p1 =>
    rw [ht] at h
    simp only [TxResult.bind] at h
    cases hd : apply_description_update p1 input.description with
    | error e =>
      rw [hd] at h
      exact TxResult.noConfusion h
    | ok p2 =>
      rw [hd] at h
      simp only [TxResult.ok.injEq] at h
      subst h
      have h1 := apply_title_update_fields ht
      have h2 := apply_description_update_fields hd
      simp only [Bool.not_eq_true] at hnc
      refine ⟨?_, ?_, ?_, ?_, ?_, ?_, ?_, hnc⟩ <;> simp_all

/-- A committed `deposit` adds the token amount to `total_supply` and one
side's supply, the lamport amount to `total_reserve` and the same side's
reserve, leaves `complete` unchanged, and commits only on a market that
was not complete. -/
theorem deposit_pool_fields {p p' : PoolState} {e e' : EntryState}
    {hh hh' : PoolHistoryState} {b : Bool} {amt tok : Nat} {now : Int}
    (h : deposit p e hh b amt now = .ok (p', e', hh', tok)) :
    p'.total_supply = p.total_supply + tok ∧
    p'.total_reserve = p.total_reserve + amt ∧
    p'.yes_supply + p'.no_supply = p.yes_supply + p.no_supply + tok ∧
    p'.yes_reserve + p'.no_reserve = p.yes_reserve + p.no_reserve + amt ∧
    p'.complete = p.complete ∧ p.complete = false := by
  cases b <;>
  · unfold deposit at h
    repeat' split at h
    all_goals try exact TxResult.noConfusion h
    all_goals simp only [TxResult.ok.injEq, Prod.mk.injEq] at h
    all_goals obtain ⟨hp, -, -, htok⟩ := h
    all_goals subst hp
    all_goals subst htok
    all_goals simp_all
    all_goals omega

/-- A committed `set_winner` changes no supply or reserve and sets
`complete`. -/
theorem set_winner_fields {m : MainState} {p p' : PoolState} {c : Nat}
    {b : Bool} {now : Int} {fee : Nat}
    (h : set_winner m p c b now = .ok (p', fee)) :
    p'.total_supply = p.total_supply ∧ p'.total_reserve = p.total_reserve ∧
    p'.yes_supply = p.yes_supply ∧ p'.yes_reserve = p.yes_reserve ∧
    p'.no_supply = p.no_supply ∧ p'.no_reserve = p.no_reserve ∧
    p'.complete = true ∧ p.complete = false := by
  unfold set_winner at h
  repeat' split at h
  all_goals try exact TxResult.noConfusion h
  all_goals simp only [TxResult.ok.injEq, Prod.mk.injEq] at h
  all_goals obtain ⟨hp, -⟩ := h
  all_goals subst hp
  all_goals simp_all

/-- A committed `claim_creator_fee` flips only `creator_fee_claimed`, on a
complete market. -/
theorem claim_creator_fee_fields {m : MainState} {p p' : PoolState}
    {c : Nat} {now : Int} {fee : Nat}
    (h : claim_creator_fee m p c now = .ok (p', fee)) :
    p'.total_supply = p.total_supply ∧ p'.total_reserve = p.total_reserve ∧
    p'.yes_supply = p.yes_supply ∧ p'.yes_reserve = p.yes_reserve ∧
    p'.no_supply = p.no_supply ∧ p'.no_reserve = p.no_reserve ∧
    p'.complete = p.complete ∧ p.complete = true := by
  unfold claim_creator_fee at h
  repeat' split at h
  all_goals try exact TxResult.noConfusion h
  all_goals simp only [TxResult.ok.injEq, Prod.mk.injEq] at h
  all_goals obtain ⟨hp, -⟩ := h
  all_goals subst hp
  all_goals simp_all

/-- `create_entry` commits only on a market that is not complete. -/
theorem create_entry_not_complete {p : PoolState} {u bid : Nat} {now : Int}
    {e' : EntryState} (h : create_entry p u bid now = .ok e') :
    p.complete = false := by
  unfold create_entry at h
  repeat' split at h
  all_goals try exact TxResult.noConfusion h
  all_goals simp_all

/-! ## Claim theorems -/

/-- C9: scenario S1 — the first deposit of 1 SOL on YES against an empty
market prices YES at `SCALE/2 = 500_000_000`, mints `2_000_000_000` tokens,
and leaves `yes_reserve = 1_000_000_000`, `yes_supply = 2_000_000_000`,
`no_reserve = 0` and a two-point history. -/
theorem c9_first_deposit_baseline :
    calculate_token_amount_and_prices 1000000000 true 0 0 =
      .ok (2000000000, 500000000, 500000000) ∧
    s1_run.map (fun w =>
        (w.pool.yes_reserve, w.pool.yes_supply, w.pool.no_reserve,
         w.pool.total_reserve, w.pool.total_supply, w.history.points.length)) =
      .ok (1000000000, 2000000000, 0, 1000000000, 2000000000, 2) := by
  constructor <;> decide

/-- C3 counterexample: the prices do not lie strictly between 0 and `SCALE`
for every pair of `u64` reserves — with `yes_reserve = 0` and
`no_reserve = 10^18` (a valid `u64`), the computed YES price is 0. -/
theorem c3_counterexample :
    yes_price 0 1000000000000000000 = 0 ∧
    ¬ (0 < yes_price 0 1000000000000000000) ∧
    (1000000000000000000 : Nat) ≤ U64_MAX := by
  refine ⟨by decide, by decide, by decide⟩

/-- Facts about the integer ratio prices `x*SCALE/(x+y)` and
`y*SCALE/(x+y)` for positive `x`, `y`. -/
theorem ratio_price_facts (x y : Nat) (hx : 0 < x) (hy : 0 < y) :
    x * SCALE / (x + y) < SCALE ∧ y * SCALE / (x + y) < SCALE ∧
    SCALE - 1 ≤ x * SCALE / (x + y) + y * SCALE / (x + y) ∧
    x * SCALE / (x + y) + y * SCALE / (x + y) ≤ SCALE ∧
    (x + y ≤ x * SCALE → 0 < x * SCALE / (x + y)) ∧
    (x + y ≤ y * SCALE → 0 < y * SCALE / (x + y)) := by
  have hS : 0 < SCALE := by decide
  have hd : 0 < x + y := by omega
  have hupx : x * SCALE / (x + y) < SCALE := by
    rw [Nat.div_lt_iff_lt_mul hd]
    calc x * SCALE < (x + y) * SCALE :=
          mul_lt_mul_of_pos_right (by omega) hS
      _ = SCALE * (x + y) := Nat.mul_comm _ _
  have hupy : y * SCALE / (x + y) < SCALE := by
    rw [Nat.div_lt_iff_lt_mul hd]
    calc y * SCALE < (x + y) * SCALE :=
          mul_lt_mul_of_pos_right (by omega) hS
      _ = SCALE * (x + y) := Nat.mul_comm _ _
  have hkey : (x * SCALE + y * SCALE) / (x + y) =
      x * SCALE / (x + y) + y * SCALE / (x + y) +
        if x + y ≤ x * SCALE % (x + y) + y * SCALE % (x + y) then 1 else 0 :=
    Nat.add_div hd
  have htot : (x * SCALE + y * SCALE) / (x + y) = SCALE := by
    rw [← Nat.add_mul, Nat.mul_div_cancel_left SCALE hd]
  rw [htot] at hkey
  refine ⟨hupx, hupy, ?_, ?_, ?_, ?_⟩
  · split at hkey <;> omega
  · split at hkey <;> omega
  · intro hle; exact Nat.div_pos hle hd
  · intro hle; exact Nat.div_pos hle hd

/-- C3 (amended): for every pair of reserves each price is strictly below
`SCALE`, the two prices sum to `SCALE` up to one unit of truncation, and
both prices are strictly positive whenever the total reserve is bounded by
`VIRTUAL * SCALE - 2 * VIRTUAL` (in particular in every state reachable by
real lamport deposits, whose total stays far below ~`10^18`); strict
positivity for arbitrary `u64` reserves fails (`c3_counterexample`). -/
theorem c3_price_bounds (yr nr : Nat) :
    yes_price yr nr < SCALE ∧ no_price yr nr < SCALE ∧
    SCALE - 1 ≤ yes_price yr nr + no_price yr nr ∧
    yes_price yr nr + no_price yr nr ≤ SCALE ∧
    (yr + nr + 2 * VIRTUAL_AMOUNT ≤ VIRTUAL_AMOUNT * SCALE →
      0 < yes_price yr nr ∧ 0 < no_price yr nr) := by
  have hV : 0 < VIRTUAL_AMOUNT := by decide
  have hfacts := ratio_price_facts (yr + VIRTUAL_AMOUNT) (nr + VIRTUAL_AMOUNT)
    (by omega) (by omega)
  rw [yes_price, no_price]
  refine ⟨hfacts.1, hfacts.2.1, hfacts.2.2.1, hfacts.2.2.2.1, ?_⟩
  intro hbound
  constructor
  · apply hfacts.2.2.2.2.1
    calc (yr + VIRTUAL_AMOUNT) + (nr + VIRTUAL_AMOUNT)
        ≤ VIRTUAL_AMOUNT * SCALE := by omega
      _ ≤ (yr + VIRTUAL_AMOUNT) * SCALE :=
          Nat.mul_le_mul_right SCALE (by omega)
  · apply hfacts.2.2.2.2.2
    calc (yr + VIRTUAL_AMOUNT) + (nr + VIRTUAL_AMOUNT)
        ≤ VIRTUAL_AMOUNT * SCALE := by omega
      _ ≤ (nr + VIRTUAL_AMOUNT) * SCALE :=
          Nat.mul_le_mul_right SCALE (by omega)

/-- Witness for C3: at the empty market both prices are positive and below
`SCALE`. -/
theorem c3_price_bounds_witness :
    0 < yes_price 0 0 ∧ yes_price 0 0 < SCALE :=
  ⟨((c3_price_bounds 0 0).2.2.2.2 (by decide)).1, (c3_price_bounds 0 0).1⟩

/-- C4: the code resets a funded entry.  In `funded_open` user 3's entry
records 100 deposited lamports and 200 tokens; a second `create_entry`
call at t = 3 (market open, before the deadline) succeeds and zeroes
`deposited_sol_amount` and `token_balance`, instead of leaving the entry
unchanged as the spec's idempotence (and its invariant
`total_reserve = Σ deposited`) requires. -/
theorem c4_reopen_resets_entry :
    lookupEntry funded_open 3 =
      some { user := 3, bet_id := 0, deposited_sol_amount := 100,
             token_balance := 200, is_yes := true, is_claimed := false } ∧
    (applyOp (.createEntry 3 3) funded_open).map (fun w => lookupEntry w 3) =
      .ok (some { user := 3, bet_id := 0, deposited_sol_amount := 0,
                  token_balance := 0, is_yes := true, is_claimed := false }) ∧
    (applyOp (.createEntry 3 3) funded_open).map (fun w => w.pool.total_reserve) =
      .ok 100 := by
  refine ⟨by decide, by decide, by decide⟩

/-- C8 counterexample: the registry reached by `init_main_state` followed by
a committed `update_main_state` carrying fees 9000/9000 bps violates
`creator_fee_bps + platform_fee_bps < 10_000`. -/
theorem c8_counterexample :
    init_main_state 10 MainState.zero = .ok registry_init ∧
    update_main_state registry_init 10
        { owner := 10, initial_price := 1, scale_factor := 1,
          creator_fee_percent := 9000, platform_fee_percent := 9000 } =
      .ok registry_bad ∧
    ¬ (registry_bad.creator_fee_percent + registry_bad.platform_fee_percent
        < 10000) := by
  refine ⟨by decide, by decide, by decide⟩

/-- C8 (amended): the fee-sum bound holds after `init_main_state`
(300 < 10_000), and `update_main_state` copies the caller's fees verbatim
without validation, so after an update the bound holds exactly when the
supplied input satisfies it. -/
theorem c8_fee_sum (owner caller : Nat) (m0 m m1 m' : MainState)
    (input : UpdateMainStateInput) :
    (init_main_state owner m0 = .ok m1 →
      m1.creator_fee_percent + m1.platform_fee_percent < 10000) ∧
    (input.creator_fee_percent + input.platform_fee_percent < 10000 →
      update_main_state m caller input = .ok m' →
      m'.creator_fee_percent + m'.platform_fee_percent < 10000) := by
  constructor
  · intro h
    unfold init_main_state at h
    split at h
    · exact absurd h (by simp)
    · simp only [TxResult.ok.injEq] at h
      subst h
      show CREATOR_FEE_PERCENT + PLATFORM_FEE_PERCENT < 10000
      decide
  · intro hin h
    unfold update_main_state at h
    split at h
    · exact absurd h (by simp)
    · split at h
      · exact absurd h (by simp)
      · simp only [TxResult.ok.injEq] at h
        subst h
        simpa using hin

/-- Witness for C8: the amended statement applied after `init_main_state`
and after a compliant `update_main_state` (fees 100/200). -/
theorem c8_fee_sum_witness :
    registry_init.creator_fee_percent + registry_init.platform_fee_percent
      < 10000 ∧
    registry_good.creator_fee_percent + registry_good.platform_fee_percent
      < 10000 :=
  ⟨(c8_fee_sum 10 10 MainState.zero MainState.zero registry_init registry_good
      { owner := 10, initial_price := 1, scale_factor := 1,
        creator_fee_percent := 100, platform_fee_percent := 200 }).1
      (by decide),
   (c8_fee_sum 10 10 MainState.zero registry_init registry_init registry_good
      { owner := 10, initial_price := 1, scale_factor := 1,
        creator_fee_percent := 100, platform_fee_percent := 200 }).2
      (by decide) (by decide)⟩

/-- C1: every successful `claim` pays out at least the entry's recorded
principal — the payout is `deposited_sol_amount` plus a non-negative
profit share, whatever the prices the entry's tokens were minted at. -/
theorem c1_claim_payout_at_least_principal (m : MainState) (p : PoolState)
    (e : EntryState) (now : Int) (e' : EntryState) (payout : Nat)
    (h : claim m p e now = .ok (e', payout)) :
    e.deposited_sol_amount ≤ payout ∧
    payout = e.deposited_sol_amount + profit_share m p e := by
  unfold claim at h
  repeat' split at h
  all_goals try exact TxResult.noConfusion h
  rename_i hle
  simp only [TxResult.ok.injEq, Prod.mk.injEq] at h
  have hpay : payout = claimPayout m p e := h.2.symm
  subst hpay
  refine ⟨?_, ?_⟩
  · unfold claimPayout satAdd128 at hle ⊢
    unfold U128_MAX U64_MAX at *
    omega
  · unfold claimPayout satAdd128 at hle ⊢
    unfold U128_MAX U64_MAX at *
    omega

/-- Witness for C1: the winner of `onesided_resolved` deposited 100 and the
committed claim pays out 100. -/
theorem c1_claim_payout_witness :
    onesided_entry.deposited_sol_amount ≤ 100 :=
  (c1_claim_payout_at_least_principal onesided_resolved.main
    onesided_resolved.pool onesided_entry 4
    { onesided_entry with is_claimed := true } 100 (by decide)).1

/-- C2 counterexample: in the committed run behind `onesided_resolved`
(open-ended market, 100 lamports deposited on YES, resolved YES with fees
1%/2%), the single winning payout (100) plus creator fee (1) plus platform
fee (2) exceeds `total_reserve` (100); the full run indeed moves 103
lamports out of the vault against 100 paid in. -/
theorem c2_counterexample :
    claimPayout onesided_resolved.main onesided_resolved.pool onesided_entry
        = 100 ∧
    creator_fee onesided_resolved.main onesided_resolved.pool = 1 ∧
    platform_fee onesided_resolved.main onesided_resolved.pool = 2 ∧
    onesided_resolved.pool.total_reserve = 100 ∧
    ¬ (claimPayout onesided_resolved.main onesided_resolved.pool onesided_entry
        + creator_fee onesided_resolved.main onesided_resolved.pool
        + platform_fee onesided_resolved.main onesided_resolved.pool
        ≤ onesided_resolved.pool.total_reserve) ∧
    onesided_final.map (fun w => (w.vault_in, w.vault_out)) = .ok (100, 103) := by
  refine ⟨by decide, by decide, by decide, by decide, by decide, by decide⟩

/-- C2 (amended): for a resolved market whose stored totals are consistent
(`total_reserve = yes_reserve + no_reserve ≤ u64::MAX`) and whose losing
reserve covers both fees
(`winning_reserve + creator_fee + platform_fee ≤ total_reserve`), the sum
of payouts over any family of winning entries whose token balances sum to
at most the winning supply and whose principals sum to at most the winning
reserve, plus the creator fee and the platform fee, does not exceed
`total_reserve`; without the fee-cover condition the bound can be exceeded
by up to the two fees (`c2_counterexample`). -/
theorem c2_payout_sum_bound (m : MainState) (p : PoolState)
    (es : List EntryState)
    (htr : p.total_reserve = p.yes_reserve + p.no_reserve)
    (hu : p.total_reserve ≤ U64_MAX)
    (hS : 0 < winningSupply p)
    (htok : (es.map EntryState.token_balance).sum ≤ winningSupply p)
    (hdep : (es.map EntryState.deposited_sol_amount).sum ≤ winningReserve p)
    (hcover : winningReserve p + creator_fee m p + platform_fee m p
        ≤ p.yes_reserve + p.no_reserve) :
    (es.map (claimPayout m p)).sum + creator_fee m p + platform_fee m p
      ≤ p.total_reserve := by
  have hT : total_reserve128 p = p.yes_reserve + p.no_reserve := by
    unfold total_reserve128 satAdd128
    have : p.yes_reserve + p.no_reserve ≤ U128_MAX := by
      unfold U128_MAX U64_MAX at *
      omega
    omega
  -- each payout is bounded by principal plus the pro-rata profit term
  have hpay : ∀ e : EntryState, claimPayout m p e ≤
      e.deposited_sol_amount +
        e.token_balance * available_profit m p / winningSupply p := by
    intro e
    unfold claimPayout satAdd128
    have hps : profit_share m p e ≤
        e.token_balance * available_profit m p / winningSupply p := by
      unfold profit_share
      split
      · exact Nat.div_le_div_right (Nat.min_le_left _ _)
      · exact Nat.zero_le _
    omega
  -- the sum of pro-rata terms is bounded by the pooled term
  have hsum : ∀ l : List EntryState,
      (l.map (claimPayout m p)).sum ≤
        (l.map EntryState.deposited_sol_amount).sum +
          ((l.map EntryState.token_balance).sum * available_profit m p)
            / winningSupply p := by
    intro l
    induction l with
    | nil => simp
    | cons e l ih =>
      simp only [List.map_cons, List.sum_cons]
      have hdiv : e.token_balance * available_profit m p / winningSupply p +
          (l.map EntryState.token_balance).sum * available_profit m p
            / winningSupply p ≤
          ((e.token_balance + (l.map EntryState.token_balance).sum)
            * available_profit m p) / winningSupply p := by
        rw [Nat.add_mul]
        exact div_add_div_le _ _ _
      have := hpay e
      omega
  have hmain := hsum es
  -- the pooled term is bounded by the whole available profit
  have hpool : ((es.map EntryState.token_balance).sum * available_profit m p)
      / winningSupply p ≤ available_profit m p := by
    calc ((es.map EntryState.token_balance).sum * available_profit m p)
          / winningSupply p
        ≤ (winningSupply p * available_profit m p) / winningSupply p :=
          Nat.div_le_div_right (Nat.mul_le_mul_right _ htok)
      _ = available_profit m p := Nat.mul_div_cancel_left _ hS
  have hap : available_profit m p =
      p.yes_reserve + p.no_reserve - winningReserve p - creator_fee m p
        - platform_fee m p := by
    unfold available_profit
    rw [hT]
  omega

/-- Witness for C2: in `twosided_resolved` (1 SOL on each side, resolved
YES) the fee-cover condition holds and the bound follows for the family
consisting of the single winning entry. -/
theorem c2_payout_sum_bound_witness :
    ([twosided_entry].map
        (claimPayout twosided_resolved.main twosided_resolved.pool)).sum
      + creator_fee twosided_resolved.main twosided_resolved.pool
      + platform_fee twosided_resolved.main twosided_resolved.pool
      ≤ twosided_resolved.pool.total_reserve :=
  c2_payout_sum_bound twosided_resolved.main twosided_resolved.pool
    [twosided_entry] (by decide) (by decide) (by decide) (by decide)
    (by decide) (by decide)

/-- C5: `deposit` rejects side switching with `InvalidBet` — whenever the
entry holds tokens and its stored side differs from the input side (with
the market open and before its deadline, so that this check is the one
that fires), the transaction fails with `InvalidBet` and, the model being
transactional, no state changes; conversely any successful deposit had
`token_balance = 0` or a matching side. -/
theorem c5_no_side_switch (p : PoolState) (e : EntryState)
    (h : PoolHistoryState) (is_yes : Bool) (amount : Nat) (now : Int) :
    (¬ p.complete = true → (0 ≤ p.end_timestamp → now < p.end_timestamp) →
      0 < e.token_balance → ¬ e.is_yes = is_yes →
      deposit p e h is_yes amount now = .error (.code .InvalidBet)) ∧
    (∀ r, deposit p e h is_yes amount now = .ok r →
      e.token_balance = 0 ∨ e.is_yes = is_yes) := by
  constructor
  · intro hc ht htb hside
    unfold deposit
    rw [if_neg (by simpa using hc)]
    rw [if_neg (by intro hx; exact absurd (ht hx.1) hx.2)]
    by_cases ha : 0 < amount
    · rw [if_neg (not_not_intro ha)]
      rw [if_pos ?_]
      intro hx
      rcases hx with hx | hx
      · omega
      · exact hside hx
    · rw [if_pos ha]
  · intro r hr
    unfold deposit at hr
    repeat' split at hr
    all_goals try exact TxResult.noConfusion hr
    all_goals try simp_all
    all_goals tauto

/-- Witness for C5: in `funded_open` user 3 holds YES tokens; a NO deposit
fails with `InvalidBet`. -/
theorem c5_no_side_switch_witness :
    deposit funded_open.pool funded_entry funded_open.history false 5 10 =
      .error (.code .InvalidBet) :=
  (c5_no_side_switch funded_open.pool funded_entry funded_open.history
    false 5 10).1 (by decide) (by decide) (by decide) (by decide)

/-- C10: at the clock instant `now = end_timestamp` of a fixed-deadline
market, `deposit` and `create_entry` fail with `BetEnded` (they need
`end_timestamp > now`) while `set_winner` fails with `BetNotEnded` (it
needs `end_timestamp < now`): the boundary second belongs to neither
phase. -/
theorem c10_deadline_boundary (m : MainState) (p : PoolState)
    (e : EntryState) (h : PoolHistoryState) (is_yes : Bool) (amount : Nat)
    (user bet_id caller : Nat) (now : Int)
    (hend : p.end_timestamp = now) (hnn : 0 ≤ p.end_timestamp)
    (hnc : ¬ p.complete = true)
    (hauth : p.referee = caller ∨ m.owner = caller) :
    deposit p e h is_yes amount now = .error (.code .BetEnded) ∧
    create_entry p user bet_id now = .error (.code .BetEnded) ∧
    set_winner m p caller is_yes now = .error (.code .BetNotEnded) := by
  refine ⟨?_, ?_, ?_⟩
  · unfold deposit
    rw [if_neg hnc]
    rw [if_pos ⟨hnn, by omega⟩]
  · unfold create_entry
    rw [if_neg hnc]
    rw [if_pos ⟨hnn, by omega⟩]
  · unfold set_winner
    rw [if_neg hnc]
    rw [if_neg (not_not_intro hauth)]
    rw [if_pos ⟨hnn, by omega⟩]

/-- Witness for C10: the boundary instant 100 on `boundary_pool`. -/
theorem c10_deadline_boundary_witness :
    deposit boundary_pool default default true 5 100 =
      .error (.code .BetEnded) ∧
    create_entry boundary_pool 3 0 100 = .error (.code .BetEnded) ∧
    set_winner MainState.zero boundary_pool 12 true 100 =
      .error (.code .BetNotEnded) :=
  c10_deadline_boundary MainState.zero boundary_pool default default true 5
    3 0 12 100 (by decide) (by decide) (by decide) (by decide)

/-- C6: in every world reachable by committed operations from a freshly
created market, `total_supply = yes_supply + no_supply` and
`total_reserve = yes_reserve + no_reserve`. -/
theorem c6_supply_reserve_invariant (w : World) (h : Reachable w) :
    w.pool.total_supply = w.pool.yes_supply + w.pool.no_supply ∧
    w.pool.total_reserve = w.pool.yes_reserve + w.pool.no_reserve := by
  induction h with
  | base o c r t d et now w hmk =>
    unfold mkWorld at hmk
    split at hmk
    · exact TxResult.noConfusion hmk
    split at hmk
    · exact TxResult.noConfusion hmk
    rename_i hcp
    simp only [TxResult.ok.injEq] at hmk
    subst hmk
    have hz := create_pool_ok_pool hcp
    simp only [hz.1, hz.2.1, hz.2.2.1, hz.2.2.2.1, hz.2.2.2.2.1, hz.2.2.2.2.2.1]
    exact ⟨trivial, trivial⟩
  | step op w w' hr hok ih =>
    cases op with
    | updateMain c input =>
      simp only [applyOp] at hok
      split at hok
      · exact TxResult.noConfusion hok
      · simp only [TxResult.ok.injEq] at hok
        subst hok
        exact ih
    | updatePool c input =>
      simp only [applyOp] at hok
      split at hok
      · exact TxResult.noConfusion hok
      · rename_i p' hupd
        simp only [TxResult.ok.injEq] at hok
        subst hok
        have hf := update_pool_fields hupd
        refine ⟨?_, ?_⟩ <;>
          simp only [hf.1, hf.2.1, hf.2.2.1, hf.2.2.2.1, hf.2.2.2.2.1,
            hf.2.2.2.2.2.1] <;> omega
    | createEntry u now =>
      simp only [applyOp] at hok
      split at hok
      · exact TxResult.noConfusion hok
      · simp only [TxResult.ok.injEq] at hok
        subst hok
        exact ih
    | deposit u b amt now =>
      simp only [applyOp] at hok
      split at hok
      · exact TxResult.noConfusion hok
      · rename_i e hent
        split at hok
        · exact TxResult.noConfusion hok
        · rename_i p' e' h' tok hdep
          simp only [TxResult.ok.injEq] at hok
          subst hok
          have hf := deposit_pool_fields hdep
          refine ⟨?_, ?_⟩ <;> simp only [] <;> omega
    | setWinner c b now =>
      simp only [applyOp] at hok
      split at hok
      · exact TxResult.noConfusion hok
      · rename_i p' fee hsw
        simp only [TxResult.ok.injEq] at hok
        subst hok
        have hf := set_winner_fields hsw
        refine ⟨?_, ?_⟩ <;>
          simp only [hf.1, hf.2.1, hf.2.2.1, hf.2.2.2.1, hf.2.2.2.2.1,
            hf.2.2.2.2.2.1] <;> omega
    | claimOp u now =>
      simp only [applyOp] at hok
      split at hok
      · exact TxResult.noConfusion hok
      · rename_i e hent
        split at hok
        · exact TxResult.noConfusion hok
        · simp only [TxResult.ok.injEq] at hok
          subst hok
          exact ih
    | claimCreatorFee c now =>
      simp only [applyOp] at hok
      split at hok
      · exact TxResult.noConfusion hok
      · rename_i p' fee hcc
        simp only [TxResult.ok.injEq] at hok
        subst hok
        have hf := claim_creator_fee_fields hcc
        refine ⟨?_, ?_⟩ <;>
          simp only [hf.1, hf.2.1, hf.2.2.1, hf.2.2.2.1, hf.2.2.2.2.1,
            hf.2.2.2.2.2.1] <;> omega

/-- Witness for C6: the invariant holds in the concrete reachable world
`funded_open`. -/
theorem c6_supply_reserve_invariant_witness :
    funded_open.pool.total_supply =
      funded_open.pool.yes_supply + funded_open.pool.no_supply ∧
    funded_open.pool.total_reserve =
      funded_open.pool.yes_reserve + funded_open.pool.no_reserve :=
  c6_supply_reserve_invariant funded_open
    (Reachable.step (.deposit 3 true 100 2) world_after_entry funded_open
      (Reachable.step (.createEntry 3 1) base_world world_after_entry
        (Reachable.base 10 11 12 "t" "d" 3600 0 base_world (by decide))
        (by decide))
      (by decide))

/-- C7: resolution is terminal — on a complete market no committed
operation changes any reserve or supply and `complete` stays `true`
(`claim` and `claim_creator_fee` flip only claim flags); moreover, with
its entry account present a `deposit` is rejected with `BetComplete`, and
an authorized `update_pool` call is rejected with `BetComplete`. -/
theorem c7_resolution_terminal (op : Op) (w w' : World) :
    (w.pool.complete = true → applyOp op w = .ok w' →
      w'.pool.complete = true ∧
      w'.pool.yes_reserve = w.pool.yes_reserve ∧
      w'.pool.no_reserve = w.pool.no_reserve ∧
      w'.pool.yes_supply = w.pool.yes_supply ∧
      w'.pool.no_supply = w.pool.no_supply ∧
      w'.pool.total_reserve = w.pool.total_reserve ∧
      w'.pool.total_supply = w.pool.total_supply) ∧
    (∀ user b amount now e, w.pool.complete = true →
      lookupEntry w user = some e →
      applyOp (.deposit user b amount now) w = .error (.code .BetComplete)) ∧
    (∀ caller input, w.pool.complete = true →
      (w.pool.creator = caller ∨ w.main.owner = caller) →
      applyOp (.updatePool caller input) w = .error (.code .BetComplete)) := by
  refine ⟨?_, ?_, ?_⟩
  · intro hc hok
    cases op with
    | updateMain c input =>
      simp only [applyOp] at hok
      split at hok
      · exact TxResult.noConfusion hok
      · simp only [TxResult.ok.injEq] at hok
        subst hok
        exact ⟨hc, rfl, rfl, rfl, rfl, rfl, rfl⟩
    | updatePool c input =>
      simp only [applyOp] at hok
      split at hok
      · exact TxResult.noConfusion hok
      · rename_i p' hupd
        have hf := update_pool_fields hupd
        rw [hc] at hf
        exact absurd hf.2.2.2.2.2.2.2 (by simp)
    | createEntry u now =>
      simp only [applyOp] at hok
      split at hok
      · exact TxResult.noConfusion hok
      · rename_i e' hce
        have hf := create_entry_not_complete hce
        rw [hc] at hf
        exact absurd hf (by simp)
    | deposit u b amt now =>
      simp only [applyOp] at hok
      split at hok
      · exact TxResult.noConfusion hok
      · rename_i e hent
        split at hok
        · exact TxResult.noConfusion hok
        · rename_i p' e' h' tok hdep
          have hf := deposit_pool_fields hdep
          rw [hc] at hf
          exact absurd hf.2.2.2.2.2 (by simp)
    | setWinner c b now =>
      simp only [applyOp] at hok
      split at hok
      · exact TxResult.noConfusion hok
      · rename_i p' fee hsw
        have hf := set_winner_fields hsw
        rw [hc] at hf
        exact absurd hf.2.2.2.2.2.2.2 (by simp)
    | claimOp u now =>
      simp only [applyOp] at hok
      split at hok
      · exact TxResult.noConfusion hok
      · rename_i e hent
        split at hok
        · exact TxResult.noConfusion hok
        · simp only [TxResult.ok.injEq] at hok
          subst hok
          exact ⟨hc, rfl, rfl, rfl, rfl, rfl, rfl⟩
    | claimCreatorFee c now =>
      simp only [applyOp] at hok
      split at hok
      · exact TxResult.noConfusion hok
      · rename_i p' fee hcc
        simp only [TxResult.ok.injEq] at hok
        subst hok
        have hf := claim_creator_fee_fields hcc
        exact ⟨by rw [hf.2.2.2.2.2.2.1]; exact hc,
               hf.2.2.2.1, hf.2.2.2.2.2.1, hf.2.2.1, hf.2.2.2.2.1,
               hf.2.1, hf.1⟩
  · intro user b amount now e hc hent
    simp only [applyOp, hent]
    unfold deposit
    rw [if_pos hc]
  · intro caller input hc hauth
    simp only [applyOp]
    unfold update_pool
    rw [if_neg (not_not_intro hauth)]
    rw [if_pos hc]

/-- Witness for C7: on the resolved market `onesided_resolved` a committed
`claim_creator_fee` preserves every reserve, supply and `complete`, and a
deposit attempt is rejected with `BetComplete`. -/
theorem c7_resolution_terminal_witness :
    (resolved_after_fee.pool.complete = true ∧
     resolved_after_fee.pool.yes_reserve = onesided_resolved.pool.yes_reserve ∧
     resolved_after_fee.pool.no_reserve = onesided_resolved.pool.no_reserve ∧
     resolved_after_fee.pool.yes_supply = onesided_resolved.pool.yes_supply ∧
     resolved_after_fee.pool.no_supply = onesided_resolved.pool.no_supply ∧
     resolved_after_fee.pool.total_reserve =
       onesided_resolved.pool.total_reserve ∧
     resolved_after_fee.pool.total_supply =
       onesided_resolved.pool.total_supply) ∧
    applyOp (.deposit 3 true 5 6) onesided_resolved =
      .error (.code .BetComplete) :=
  ⟨(c7_resolution_terminal (.claimCreatorFee 11 5) onesided_resolved
      resolved_after_fee).1 (by decide) (by decide),
   (c7_resolution_terminal (.claimCreatorFee 11 5) onesided_resolved
      resolved_after_fee).2.1 3 true 5 6 onesided_entry (by decide)
      (by decide)⟩

end Betting
